import Mathlib

/-!
Verification of the token / claims authorization core of flat-manager
(src/src/tokens.rs), shallowly embedded in Lean 4.

Rust strings (&str / String) are modelled as `List Char`.  Error messages
built with format! are modelled as Lean `String`s.  The jwt decode step
(external crate, invoked with validate_exp = false) and the revocation
store (db.check_token, external to tokens.rs) are modelled as function
parameters, so theorems quantify over every possible behaviour of these
collaborators.
-/

/-- The enum ClaimsScope from tokens.rs.  The derived Rust PartialEq/Eq is
modelled by the derived BEq/DecidableEq. -/
inductive ClaimsScope where
  | Jobs
  | Build
  | Upload
  | Publish
  | Generate
  | Download
  | Republish
  | ReviewCheck
  | TokenManagement
  | Unknown
deriving BEq, DecidableEq

/-- The Display impl for ClaimsScope: the Debug name lower-cased. -/
def ClaimsScope.display : ClaimsScope → String
  | .Jobs => "jobs"
  | .Build => "build"
  | .Upload => "upload"
  | .Publish => "publish"
  | .Generate => "generate"
  | .Download => "download"
  | .Republish => "republish"
  | .ReviewCheck => "reviewcheck"
  | .TokenManagement => "tokenmanagement"
  | .Unknown => "unknown"

/-- The struct Claims from tokens.rs. -/
structure Claims where
  name : Option String
  sub : List Char
  exp : Int
  jti : Option (List Char)
  scope : List ClaimsScope
  prefixes : List (List Char)
  apps : List (List Char)
  repos : List (List Char)
  branches : List (List Char)
  token_type : Option String
deriving DecidableEq

/-- The ApiError variants constructed in tokens.rs (errors.rs is not under
src/; only the constructors this file uses are modelled, plus `Revoked`).
`Revoked` is Modelled from the spec: the error class produced by the
external revocation store, whose concrete variant is not in src/. -/
inductive ApiError where
  | NotEnoughPermissions (msg : String)
  | InvalidToken (msg : String)
  | Revoked (msg : String)
deriving DecidableEq

/-- Rust str.strip_prefix: `strip_prefix s p` strips `p` from the front of
`s`, returning the rest when `p` is a prefix of `s` and none otherwise. -/
def strip_prefix : List Char → List Char → Option (List Char)
  | s, [] => some s
  | [], _ :: _ => none
  | c :: cs, p :: ps => if c = p then strip_prefix cs ps else none

/-- Rust str.starts_with(char): the first character equals the given one. -/
def starts_with_char : List Char → Char → Bool
  | [], _ => false
  | c :: _, ch => c == ch

/-- fn sub_has_prefix(required_sub, claimed_sub) from tokens.rs. -/
def sub_has_prefix (required_sub claimed_sub : List Char) : Bool :=
  match strip_prefix required_sub claimed_sub with
  | some rest => rest.isEmpty || starts_with_char rest '/'
  | none => false

/-- fn id_matches_prefix(id, prefix) from tokens.rs. -/
def id_matches_prefix (id pre : List Char) : Bool :=
  if pre.isEmpty then true
  else
    match strip_prefix id pre with
    | some rest => rest.isEmpty || starts_with_char rest '.'
    | none => false

/-- fn id_matches_one_prefix(id, prefixes) from tokens.rs. -/
def id_matches_one_prefix (id : List Char) (prefixes : List (List Char)) : Bool :=
  prefixes.any (fun pre => id_matches_prefix id pre)

/-- fn repo_matches_claimed(repo, claimed_repo) from tokens.rs. -/
def repo_matches_claimed (repo claimed_repo : List Char) : Bool :=
  if claimed_repo.isEmpty then true
  else repo == claimed_repo

/-- fn repo_matches_one_claimed(repo, claimed_repos) from tokens.rs. -/
def repo_matches_one_claimed (repo : List Char) (claimed_repos : List (List Char)) : Bool :=
  claimed_repos.any (fun claimed_repo => repo_matches_claimed repo claimed_repo)

namespace ClaimsValidator

/-- The trait method validate_claims of impl ClaimsValidator for
HttpRequest.  The request's extension bag is modelled by the
`Option Claims` it may hold. -/
def validate_claims (ext : Option Claims) (func : Claims → Except ApiError Unit) :
    Except ApiError Unit :=
  match ext with
  | some claims => func claims
  | none => Except.error (ApiError.NotEnoughPermissions "No token specified")

/-- The trait method has_token_claims from tokens.rs. -/
def has_token_claims (ext : Option Claims) (required_sub : List Char)
    (required_scope : ClaimsScope) : Except ApiError Unit :=
  validate_claims ext (fun claims =>
    if ! sub_has_prefix required_sub claims.sub then
      Except.error (ApiError.NotEnoughPermissions
        ("Not matching sub \x27" ++ String.mk required_sub ++ "\x27 in token"))
    else if ! claims.scope.contains required_scope then
      Except.error (ApiError.NotEnoughPermissions
        ("Not matching scope \x27" ++ required_scope.display ++ "\x27 in token"))
    else Except.ok ())

/-- The trait method has_token_prefix from tokens.rs. -/
def has_token_prefix (ext : Option Claims) (id : List Char) : Except ApiError Unit :=
  validate_claims ext (fun claims =>
    if claims.prefixes.isEmpty then Except.ok ()
    else if ! id_matches_one_prefix id claims.prefixes && ! claims.apps.contains id then
      Except.error (ApiError.NotEnoughPermissions
        ("Id " ++ String.mk id ++ " not matching prefix in token"))
    else Except.ok ())

/-- The trait method has_token_repo from tokens.rs. -/
def has_token_repo (ext : Option Claims) (repo : List Char) : Except ApiError Unit :=
  validate_claims ext (fun claims =>
    if ! repo_matches_one_claimed repo claims.repos then
      Except.error (ApiError.NotEnoughPermissions "Not matching repo in token")
    else Except.ok ())

end ClaimsValidator

/-- fn validate_claims(secret, token) from tokens.rs.  The jwt decode with
the shared secret and validate_exp = false is abstracted as the `decode`
parameter; it receives only the token, never the current time, mirroring
`validation.validate_exp = false`.  The current unix time is the `now`
parameter. -/
def validate_claims (decode : List Char → Option Claims) (now : Int)
    (token : List Char) : Except ApiError Claims :=
  match decode token with
  | none => Except.error (ApiError.InvalidToken "Invalid token claims")
  | some claims =>
    if claims.exp < now then Except.error (ApiError.InvalidToken "Token is expired")
    else Except.ok claims

/-- Rust str.splitn(2, ' '): the part before the first space, and the rest
after it when a space exists. -/
def splitn2_space : List Char → List Char × Option (List Char)
  | [] => ([], none)
  | c :: cs =>
    if c = ' ' then ([], some cs)
    else
      let r := splitn2_space cs
      (c :: r.1, r.2)

/-- fn parse_authorization(prefix, header) from tokens.rs.  The header
value is modelled as a char list (the to_str conversion-failure branch
concerns non-UTF8 bytes, which the model cannot represent). -/
def parse_authorization (pre : Option (List Char)) (header : List Char) :
    Except ApiError (List Char) :=
  if header.length < 8 then
    Except.error (ApiError.InvalidToken "Header length too short")
  else
    let parts := splitn2_space header
    if parts.1 ≠ "Bearer".toList then
      Except.error (ApiError.InvalidToken "Token scheme is not Bearer")
    else
      match parts.2 with
      | none => Except.error (ApiError.InvalidToken "No token value in header")
      | some token =>
        match pre with
        | some p => Except.ok (( strip_prefix token p).getD token)
        | none => Except.ok token

/-- fn get_token(optional, prefix, req) from tokens.rs.  The request's
AUTHORIZATION header is modelled by the `Option (List Char)` it may
hold. -/
def get_token (optional : Bool) (pre : Option (List Char))
    (header : Option (List Char)) : Except ApiError (Option (List Char)) :=
  match header with
  | none =>
    if optional then Except.ok none
    else Except.error (ApiError.InvalidToken "No Authorization header")
  | some h =>
    match parse_authorization pre h with
    | Except.error e => Except.error e
    | Except.ok token => Except.ok (some token)

/-- async fn check_token_async(db, secret, token) from tokens.rs.  The
external revocation store db.check_token is abstracted as the `db_check`
parameter. -/
def check_token_async (decode : List Char → Option Claims)
    (db_check : List Char → Int → Except ApiError Unit)
    (now : Int) (token : List Char) : Except ApiError Claims :=
  match validate_claims decode now token with
  | Except.error e => Except.error e
  | Except.ok claims =>
    match claims.jti with
    | some jti =>
      match db_check jti claims.exp with
      | Except.error e => Except.error e
      | Except.ok _ => Except.ok claims
    | none => Except.ok claims

/-! ## Helper lemmas about the string matchers -/

theorem strip_prefix_eq_some (p : List Char) :
    ∀ (s r : List Char), strip_prefix s p = some r ↔ s = p ++ r := by
  induction p with
  | nil =>
    intro s r
    simp [ strip_prefix]
  | cons q qs ih =>
    intro s r
    cases s with
    | nil => simp [ strip_prefix]
    | cons c cs =>
      by_cases h : c = q
      · subst h
        simp [ strip_prefix, ih]
      · simp [ strip_prefix, h]

theorem strip_boundary_iff (r c : List Char) (ch : Char) :
    (match strip_prefix r c with
     | some rest => rest.isEmpty || starts_with_char rest ch
     | none => false) = true ↔ (r = c ∨ c ++ [ch] <+: r) := by
  cases h : strip_prefix r c with
  | none =>
    simp only [Bool.false_eq_true, false_iff]
    intro hcontra
    rcases hcontra with heq | ⟨t, ht⟩
    · rw [heq] at h
      have h0 : strip_prefix c c = some [] := by
        rw [ strip_prefix_eq_some]
        simp
      rw [h0] at h
      exact Option.noConfusion h
    · have h0 : strip_prefix r c = some (ch :: t) := by
        rw [ strip_prefix_eq_some]
        rw [← ht]
        simp
      rw [h0] at h
      exact Option.noConfusion h
  | some rest =>
    have hr : r = c ++ rest := ( strip_prefix_eq_some c r rest).mp h
    cases rest with
    | nil =>
      simp [hr]
    | cons x t =>
      simp only [List.isEmpty_cons, Bool.false_or, starts_with_char, beq_iff_eq]
      subst hr
      constructor
      · intro hx
        subst hx
        exact Or.inr ⟨t, by simp⟩
      · intro hcontra
        rcases hcontra with heq | ⟨u, hu⟩
        · exfalso
          have hlen := congrArg List.length heq
          simp at hlen
        · have h2 : ch :: u = x :: t := by
            have h3 : c ++ (ch :: u) = c ++ x :: t := by
              rw [← hu]
              simp
            exact List.append_cancel_left h3
          injection h2 with h3 _
          exact h3.symm

/-! ## Claim theorems -/

/-- C6: for all strings r and c, sub_has_prefix r c returns true iff
r equals c or r starts with c immediately followed by the character '/';
claimed "build" matches required "build" and "build/7" but not
"buildx". -/
theorem C6_sub_has_prefix_iff :
    (∀ r c : List Char, sub_has_prefix r c = true ↔ (r = c ∨ c ++ ['/'] <+: r)) ∧
    sub_has_prefix "build".toList "build".toList = true ∧
    sub_has_prefix "build/7".toList "build".toList = true ∧
    sub_has_prefix "buildx".toList "build".toList = false := by
  refine ⟨fun r c => ?_, by decide, by decide, by decide⟩
  unfold sub_has_prefix
  exact strip_boundary_iff r c '/'

/-- C7: id_matches_prefix id pre returns true when pre is empty, and
otherwise iff id starts with pre followed by end-of-string or the
character '.'; it accepts ("org.foo.bar", "org.foo") and rejects
("org.foobar", "org.foo"). -/
theorem C7_id_matches_prefix_iff :
    (∀ id pre : List Char,
      id_matches_prefix id pre = true ↔ (pre = [] ∨ id = pre ∨ pre ++ ['.'] <+: id)) ∧
    (∀ id : List Char, id_matches_prefix id [] = true) ∧
    id_matches_prefix "org.foo.bar".toList "org.foo".toList = true ∧
    id_matches_prefix "org.foobar".toList "org.foo".toList = false := by
  refine ⟨fun id pre => ?_, fun id => rfl, by decide, by decide⟩
  unfold id_matches_prefix
  by_cases hp : pre.isEmpty
  · have hp2 : pre = [] := by simpa using hp
    simp [hp, hp2]
  · have hp2 : pre ≠ [] := by simpa using hp
    simp only [hp, if_false, hp2, false_or]
    exact strip_boundary_iff id pre '.'

/-- C1 counterexample: with required scope Unknown, a Claims value whose
scope set contains only Unknown passes the scope-membership test and
has_token_claims succeeds, because the derived equality makes Unknown
equal to itself; so Unknown is not unequal to every requested scope. -/
theorem C1_unknown_counterexample :
    ClaimsValidator.has_token_claims
      (some ⟨none, [], 0, none, [ClaimsScope.Unknown], [], [], [], [], none⟩)
      [] ClaimsScope.Unknown = Except.ok () := rfl

/-- C1 (amended): for every required scope other than Unknown itself, a
scope set containing only Unknown fails the scope-membership test of
has_token_claims, and has_token_claims never succeeds. -/
theorem C1_unknown_scope_never_matches (claims : Claims) (required_sub : List Char)
    (required_scope : ClaimsScope) (hscope : claims.scope = [ClaimsScope.Unknown])
    (hne : required_scope ≠ ClaimsScope.Unknown) :
    claims.scope.contains required_scope = false ∧
    ClaimsValidator.has_token_claims (some claims) required_sub required_scope ≠
      Except.ok () := by
  have hc : claims.scope.contains required_scope = false := by
    rw [hscope]
    cases required_scope
    case Unknown => exact absurd rfl hne
    all_goals rfl
  refine ⟨hc, ?_⟩
  unfold ClaimsValidator.has_token_claims ClaimsValidator.validate_claims
  cases hs : sub_has_prefix required_sub claims.sub <;> simp [hs, hc]

/-- C1 witness: concrete instance of the amended claim at required scope
Build and a token whose scope list is exactly the singleton Unknown. -/
theorem C1_unknown_scope_never_matches_witness :
    ([ClaimsScope.Unknown] : List ClaimsScope).contains ClaimsScope.Build = false ∧
    ClaimsValidator.has_token_claims
      (some ⟨none, [], 0, none, [ClaimsScope.Unknown], [], [], [], [], none⟩)
      [] ClaimsScope.Build ≠ Except.ok () :=
  C1_unknown_scope_never_matches
    ⟨none, [], 0, none, [ClaimsScope.Unknown], [], [], [], [], none⟩
    [] ClaimsScope.Build rfl (by decide)

/-- C2 counterexample: an expired token whose signature verifies is
rejected with the ApiError.InvalidToken kind (message "Token is expired"),
the same error kind the code uses for signature/structure failure, so
expiry is not a distinct error kind. -/
theorem C2_expired_uses_invalid_token_kind :
    validate_claims (fun _ => some ⟨none, [], 0, none, [], [], [], [], [], none⟩)
      100 [] = Except.error (ApiError.InvalidToken "Token is expired") ∧
    validate_claims (fun _ => none) 100 [] =
      Except.error (ApiError.InvalidToken "Invalid token claims") :=
  ⟨rfl, rfl⟩

/-- C2 (amended): every token whose signature verifies (decode succeeds)
but whose exp lies before the current time is rejected, with the
ApiError.InvalidToken kind carrying the message "Token is expired"; the
code does not use a distinct Expired error kind, so expiry failures are
distinguished from signature failures only by the message string. -/
theorem C2_expired_rejected_as_invalid_token (decode : List Char → Option Claims)
    (token : List Char) (now : Int) (claims : Claims)
    (hdec : decode token = some claims) (hexp : claims.exp < now) :
    validate_claims decode now token =
      Except.error (ApiError.InvalidToken "Token is expired") := by
  unfold validate_claims
  rw [hdec]
  simp [hexp]

/-- C2 witness: the amended claim at a concrete expired token. -/
theorem C2_expired_rejected_as_invalid_token_witness :
    validate_claims (fun _ => some ⟨none, ['s'], 0, none, [], [], [], [], [], none⟩)
      100 ['t'] = Except.error (ApiError.InvalidToken "Token is expired") :=
  C2_expired_rejected_as_invalid_token _ ['t'] 100 _ rfl (by decide)

/-- C3 counterexample: when no Claims value is attached, validate_claims
fails with the ApiError.NotEnoughPermissions kind (message "No token
specified") — the very same error kind used for policy denials — so the
two cases are not distinguishable by error kind. -/
theorem C3_no_token_uses_not_enough_permissions_kind :
    ClaimsValidator.validate_claims none (fun _ => Except.ok ()) =
      Except.error (ApiError.NotEnoughPermissions "No token specified") := rfl

/-- C3 (amended): for every caller-supplied predicate, when no Claims
value is attached validate_claims fails immediately with
NotEnoughPermissions "No token specified" without invoking the predicate
(the result is this fixed error for every predicate); the missing-token
case is distinguished from policy denials only by the message string, not
by a distinct error kind. -/
theorem C3_missing_claims_immediate_error (func : Claims → Except ApiError Unit) :
    ClaimsValidator.validate_claims none func =
      Except.error (ApiError.NotEnoughPermissions "No token specified") := rfl

/-- C4 counterexample: in required mode an absent Authorization header is
rejected with the ApiError.InvalidToken kind (message "No Authorization
header"), not with a MissingHeader kind distinct from the InvalidToken
class. -/
theorem C4_missing_header_uses_invalid_token_kind :
    get_token false none none =
      Except.error (ApiError.InvalidToken "No Authorization header") := rfl

/-- C4 (amended): when the Authorization header is absent, the
optional-mode engine yields no Claims and no error, while the
required-mode engine rejects with InvalidToken "No Authorization header" —
the same error kind as other token failures, distinguished only by its
message. -/
theorem C4_missing_header_behavior (pre : Option (List Char)) :
    get_token true pre none = Except.ok none ∧
    get_token false pre none =
      Except.error (ApiError.InvalidToken "No Authorization header") :=
  ⟨rfl, rfl⟩

/-- C5: for every Claims value and identifier, has_token_prefix succeeds
exactly when the prefixes list is empty, or the identifier matches one of
the prefixes, or the identifier is an exact member of the apps list. -/
theorem C5_has_token_prefix_iff (claims : Claims) (id : List Char) :
    ClaimsValidator.has_token_prefix (some claims) id = Except.ok () ↔
      (claims.prefixes = [] ∨ id_matches_one_prefix id claims.prefixes = true ∨
        claims.apps.contains id = true) := by
  unfold ClaimsValidator.has_token_prefix ClaimsValidator.validate_claims
  by_cases hp : claims.prefixes.isEmpty
  · have hp2 : claims.prefixes = [] := by simpa using hp
    simp [hp, hp2]
  · have hp2 : claims.prefixes ≠ [] := by simpa using hp
    cases hA : id_matches_one_prefix id claims.prefixes <;>
      cases hB : claims.apps.contains id <;>
        simp [hp, hp2, hA, hB] <;>
          simpa using hB

/-- C8: the revocation check runs exactly when the decoded Claims carries
a jti: without one the pipeline accepts without consulting the store, and
with one every store failure is propagated as a rejection while store
success yields the claims. -/
theorem C8_revocation_gate (decode : List Char → Option Claims)
    (db_check : List Char → Int → Except ApiError Unit) (now : Int)
    (token : List Char) (claims : Claims)
    (hdec : decode token = some claims) (hexp : ¬ claims.exp < now) :
    (claims.jti = none → check_token_async decode db_check now token = Except.ok claims) ∧
    (∀ j e, claims.jti = some j → db_check j claims.exp = Except.error e →
      check_token_async decode db_check now token = Except.error e) ∧
    (∀ j, claims.jti = some j → db_check j claims.exp = Except.ok () →
      check_token_async decode db_check now token = Except.ok claims) := by
  have hv : validate_claims decode now token = Except.ok claims := by
    unfold validate_claims
    rw [hdec]
    simp [hexp]
  refine ⟨?_, ?_, ?_⟩
  · intro hj
    simp [check_token_async, hv, hj]
  · intro j e hj hdb
    simp [check_token_async, hv, hj, hdb]
  · intro j hj hdb
    simp [check_token_async, hv, hj, hdb]

/-- C8 witness: a concrete unexpired token with a jti whose store lookup
fails is rejected with the store's error. -/
theorem C8_revocation_gate_witness :
    check_token_async
      (fun _ => some ⟨none, [], 10, some ['j'], [], [], [], [], [], none⟩)
      (fun _ _ => Except.error (ApiError.Revoked "revoked")) 5 [] =
      Except.error (ApiError.Revoked "revoked") :=
  (C8_revocation_gate _ _ 5 [] _ rfl (by decide)).2.1 ['j']
    (ApiError.Revoked "revoked") rfl rfl

/-- C9: expiry is checked after the (time-independent) decode step by
comparing exp with the current time, and an expired token is rejected
with the same result for every possible revocation store — the store is
never reached. -/
theorem C9_expiry_checked_before_revocation (decode : List Char → Option Claims)
    (token : List Char) (now : Int) (claims : Claims)
    (hdec : decode token = some claims) (hexp : claims.exp < now) :
    validate_claims decode now token =
      Except.error (ApiError.InvalidToken "Token is expired") ∧
    ∀ db_check : List Char → Int → Except ApiError Unit,
      check_token_async decode db_check now token =
        Except.error (ApiError.InvalidToken "Token is expired") := by
  have hv : validate_claims decode now token =
      Except.error (ApiError.InvalidToken "Token is expired") := by
    unfold validate_claims
    rw [hdec]
    simp [hexp]
  refine ⟨hv, fun db_check => ?_⟩
  simp [check_token_async, hv]

/-- C9 witness: a concrete expired token carrying a jti is rejected as
expired even under a store that would have accepted it. -/
theorem C9_expiry_checked_before_revocation_witness :
    check_token_async
      (fun _ => some ⟨none, [], 0, some ['j'], [], [], [], [], [], none⟩)
      (fun _ _ => Except.ok ()) 7 [] =
      Except.error (ApiError.InvalidToken "Token is expired") :=
  (C9_expiry_checked_before_revocation _ [] 7 _ rfl (by decide)).2
    (fun _ _ => Except.ok ())

/-- C10: a Claims value with an empty repos list fails has_token_repo for
every repo (the empty list is deny-all; the wildcard needs an explicit
empty-string entry, which matches every repo), the opposite of prefixes
where an empty list makes has_token_prefix succeed. -/
theorem C10_empty_repos_deny (claims : Claims) (repo id : List Char)
    (hrepos : claims.repos = []) :
    ClaimsValidator.has_token_repo (some claims) repo =
      Except.error (ApiError.NotEnoughPermissions "Not matching repo in token") ∧
    repo_matches_one_claimed repo claims.repos = false ∧
    repo_matches_one_claimed repo [[]] = true ∧
    (claims.prefixes = [] →
      ClaimsValidator.has_token_prefix (some claims) id = Except.ok ()) := by
  refine ⟨?_, by rw [hrepos]; rfl, rfl, ?_⟩
  · simp [ClaimsValidator.has_token_repo, ClaimsValidator.validate_claims, hrepos,
      repo_matches_one_claimed]
  · intro hpre
    simp [ClaimsValidator.has_token_prefix, ClaimsValidator.validate_claims, hpre]

/-- C10 witness: concrete instance with empty repos and empty prefixes. -/
theorem C10_empty_repos_deny_witness :
    ClaimsValidator.has_token_repo
      (some ⟨none, [], 0, none, [], [], [], [], [], none⟩) "stable".toList =
      Except.error (ApiError.NotEnoughPermissions "Not matching repo in token") ∧
    repo_matches_one_claimed "stable".toList [] = false ∧
    repo_matches_one_claimed "stable".toList [[]] = true ∧
    ClaimsValidator.has_token_prefix
      (some ⟨none, [], 0, none, [], [], [], [], [], none⟩) "org.x".toList =
      Except.ok () := by
  have h := C10_empty_repos_deny ⟨none, [], 0, none, [], [], [], [], [], none⟩
    "stable".toList "org.x".toList rfl
  exact ⟨h.1, h.2.1, h.2.2.1, h.2.2.2 rfl⟩
